import Mathlib

/-!
Shallow embedding of the `grpc_zerolog` configuration module
(`src/options.go`): the policy-configuration surface of a gRPC logging
interceptor.  Pure Go functions become Lean functions; the functional-options
idiom (closures mutating a working copy of the defaults) becomes functions
`options → options` folded over the list of overrides.
-/

namespace GrpcZerolog

/-- gRPC status codes (`google.golang.org/grpc/codes`): `type Code uint32`;
`OK = 0`, `NotFound = 5`. -/
abbrev Code := Nat

def codes.OK : Code := 0

def codes.NotFound : Code := 5

/-- zerolog severity levels (`type Level int8`); `InfoLevel = 1`,
`ErrorLevel = 3`. -/
abbrev Level := Int

def zerolog.InfoLevel : Level := 1

def zerolog.ErrorLevel : Level := 3

/-- Go `error` values are nullable and opaque to this module; `none` models
`nil`, `some s` a non-nil error. -/
abbrev GoErr := Option String

/-- `type LoggableEvent uint` with the four `iota` constants of
`src/options.go` lines 11–26. -/
inductive LoggableEvent where
  | StartCall
  | FinishCall
  | PayloadReceived
  | PayloadSent
deriving DecidableEq, Repr

/-- `type CodeToLevel func(code codes.Code) zerolog.Level`
(`src/options.go` line 52). -/
abbrev CodeToLevel := Code → Level

/-- `type Decider func(fullMethodName string, err error) bool`
(`src/options.go` line 55). -/
abbrev Decider := String → GoErr → Bool

/-- `DefaultCodeToLevelFunc` (`src/options.go` lines 31–36): `Info` on
`codes.OK`, `Error` in all other cases. -/
def DefaultCodeToLevelFunc : CodeToLevel := fun code =>
  if code = codes.OK then zerolog.InfoLevel else zerolog.ErrorLevel

/-- `DefaultDeciderFunc` (`src/options.go` lines 40–42): returns true
always. -/
def DefaultDeciderFunc : Decider := fun _fullMethodName _err => true

/-- `type options struct` (`src/options.go` lines 81–85). -/
structure options where
  levelFunc : CodeToLevel
  shouldLog : Decider
  loggableEvents : List LoggableEvent

/-- The package-level `defaultOptions` value (`src/options.go` lines
44–48). -/
def defaultOptions : options :=
  { levelFunc := DefaultCodeToLevelFunc
  , shouldLog := DefaultDeciderFunc
  , loggableEvents := [.StartCall, .FinishCall] }

/-- `type Option func(*options)` (`src/options.go` line 58); a mutation of
the working copy becomes a function from the old record to the new one.
Named `Opt` because `Option` is taken by Lean's core library. -/
abbrev Opt := options → options

/-- `WithLevels` (`src/options.go` lines 61–65): `o.levelFunc = f`. -/
def WithLevels (f : CodeToLevel) : Opt := fun o => { o with levelFunc := f }

/-- `WithDecider` (`src/options.go` lines 68–72): `o.shouldLog = f`. -/
def WithDecider (f : Decider) : Opt := fun o => { o with shouldLog := f }

/-- `WithLogOnEvents` (`src/options.go` lines 75–79):
`o.loggableEvents = events`. -/
def WithLogOnEvents (events : List LoggableEvent) : Opt :=
  fun o => { o with loggableEvents := events }

/-- `evaluateOptions` (`src/options.go` lines 87–94): copy the defaults into
a fresh working record, apply each override in list order, return the
result. -/
def evaluateOptions (opts : List Opt) : options :=
  opts.foldl (fun optCopy o => o optCopy) defaultOptions

/-- The package-level mutable state of `options.go`: the one global the
directives could conceivably reach, `defaultOptions` (lines 44–48).  Used to
state the frame/no-mutation claim. -/
structure PkgState where
  defaultOptions : options

/-- The package state as initialised at `src/options.go` lines 44–48. -/
def initPkgState : PkgState := { defaultOptions := defaultOptions }

/-- `evaluateOptions` with the package state made explicit: lines 88–89
allocate a fresh `optCopy` cell and value-copy `*defaultOptions` into it;
every directive receives a pointer to that fresh cell only, so the fold
touches the copy and the global cell is returned as it was. -/
def evaluateOptionsIn (s : PkgState) (opts : List Opt) : options × PkgState :=
  let optCopy := s.defaultOptions
  (opts.foldl (fun c o => o c) optCopy, s)

/-- Modelled from the spec: the query API member `isEventEnabled` (§6) is "a
membership test against the stored event set"; the interceptor code that
performs this test is outside `src/`. -/
def options.isEventEnabled (o : options) (e : LoggableEvent) : Bool :=
  o.loggableEvents.contains e

/-- The closed set of override-directive constructors of §4.1, as a sum type
so that claims can quantify over sequences of directives and speak about
which field each one targets. -/
inductive Directive where
  | withLevels (f : CodeToLevel)
  | withDecider (f : Decider)
  | withLogOnEvents (events : List LoggableEvent)

/-- Each directive denotes exactly the closure the corresponding Go
constructor returns. -/
def Directive.interp : Directive → Opt
  | .withLevels f => WithLevels f
  | .withDecider f => WithDecider f
  | .withLogOnEvents es => WithLogOnEvents es

/-- The severity mapper a directive supplies, if it targets that field. -/
def Directive.levelsOf : Directive → Option CodeToLevel
  | .withLevels f => some f
  | _ => none

/-- The suppression rule a directive supplies, if it targets that field. -/
def Directive.deciderOf : Directive → Option Decider
  | .withDecider f => some f
  | _ => none

/-- The event list a directive supplies, if it targets that field. -/
def Directive.eventsOf : Directive → Option (List LoggableEvent)
  | .withLogOnEvents es => some es
  | _ => none

/-- The value supplied by the last directive in `ds` that targets the field
selected by `pick`, if any. -/
def lastTargeting (pick : Directive → Option α) (ds : List Directive) :
    Option α :=
  (ds.filterMap pick).getLast?

theorem foldl_levelFunc (ds : List Directive) (init : options) :
    (ds.foldl (fun c d => d.interp c) init).levelFunc
      = (lastTargeting Directive.levelsOf ds).getD init.levelFunc := by
  induction ds using List.reverseRecOn with
  | nil => rfl
  | append_singleton ds d ih =>
    rw [List.foldl_append]
    cases d with
    | withLevels f =>
      simp [lastTargeting, List.filterMap_append, Directive.levelsOf,
        Directive.interp, WithLevels]
    | withDecider f =>
      simpa [lastTargeting, List.filterMap_append, Directive.deciderOf,
        Directive.levelsOf, Directive.interp, WithDecider] using ih
    | withLogOnEvents es =>
      simpa [lastTargeting, List.filterMap_append, Directive.eventsOf,
        Directive.levelsOf, Directive.interp, WithLogOnEvents] using ih

theorem foldl_shouldLog (ds : List Directive) (init : options) :
    (ds.foldl (fun c d => d.interp c) init).shouldLog
      = (lastTargeting Directive.deciderOf ds).getD init.shouldLog := by
  induction ds using List.reverseRecOn with
  | nil => rfl
  | append_singleton ds d ih =>
    rw [List.foldl_append]
    cases d with
    | withLevels f =>
      simpa [lastTargeting, List.filterMap_append, Directive.deciderOf,
        Directive.interp, WithLevels] using ih
    | withDecider f =>
      simp [lastTargeting, List.filterMap_append, Directive.deciderOf,
        Directive.interp, WithDecider]
    | withLogOnEvents es =>
      simpa [lastTargeting, List.filterMap_append, Directive.deciderOf,
        Directive.interp, WithLogOnEvents] using ih

theorem foldl_loggableEvents (ds : List Directive) (init : options) :
    (ds.foldl (fun c d => d.interp c) init).loggableEvents
      = (lastTargeting Directive.eventsOf ds).getD init.loggableEvents := by
  induction ds using List.reverseRecOn with
  | nil => rfl
  | append_singleton ds d ih =>
    rw [List.foldl_append]
    cases d with
    | withLevels f =>
      simpa [lastTargeting, List.filterMap_append, Directive.eventsOf,
        Directive.interp, WithLevels] using ih
    | withDecider f =>
      simpa [lastTargeting, List.filterMap_append, Directive.eventsOf,
        Directive.interp, WithDecider] using ih
    | withLogOnEvents es =>
      simp [lastTargeting, List.filterMap_append, Directive.eventsOf,
        Directive.interp, WithLogOnEvents]

/-- C1: for every sequence of override directives, each field of the snapshot
built by `evaluateOptions` equals the value supplied by the last directive
targeting that field, or its default when no directive targets it; directives
targeting the other two fields do not affect it (last-write-wins,
field-granular). -/
theorem evaluateOptions_last_write_wins (ds : List Directive) :
    (evaluateOptions (ds.map Directive.interp)).levelFunc
      = (lastTargeting Directive.levelsOf ds).getD DefaultCodeToLevelFunc
  ∧ (evaluateOptions (ds.map Directive.interp)).shouldLog
      = (lastTargeting Directive.deciderOf ds).getD DefaultDeciderFunc
  ∧ (evaluateOptions (ds.map Directive.interp)).loggableEvents
      = (lastTargeting Directive.eventsOf ds).getD [.StartCall, .FinishCall] := by
  unfold evaluateOptions
  rw [List.foldl_map]
  exact ⟨foldl_levelFunc ds defaultOptions, foldl_shouldLog ds defaultOptions,
    foldl_loggableEvents ds defaultOptions⟩

/-- C2: `evaluateOptions []` returns the documented defaults: `levelFunc` maps
`OK` to `Info` and everything else to `Error`, `shouldLog` is constantly true,
and `loggableEvents` is exactly `[StartCall, FinishCall]`. -/
theorem evaluateOptions_nil_defaults :
    (evaluateOptions []).levelFunc codes.OK = zerolog.InfoLevel
  ∧ (∀ c : Code, c ≠ codes.OK →
      (evaluateOptions []).levelFunc c = zerolog.ErrorLevel)
  ∧ (∀ (m : String) (e : GoErr), (evaluateOptions []).shouldLog m e = true)
  ∧ (evaluateOptions []).loggableEvents = [.StartCall, .FinishCall] := by
  refine ⟨rfl, ?_, fun _ _ => rfl, rfl⟩
  intro c hc
  simp [evaluateOptions, defaultOptions, DefaultCodeToLevelFunc, hc]

/-- Witness for C2: at the concrete non-OK code `NotFound` (5), the default
level function yields `Error`. -/
theorem evaluateOptions_nil_defaults_witness :
    codes.NotFound ≠ codes.OK
  ∧ (evaluateOptions []).levelFunc codes.NotFound = zerolog.ErrorLevel :=
  ⟨by decide, evaluateOptions_nil_defaults.2.1 codes.NotFound (by decide)⟩

/-- C3: `DefaultCodeToLevelFunc` is a total deterministic function returning
`Info` on `OK` and `Error` on every other code. -/
theorem DefaultCodeToLevelFunc_spec :
    DefaultCodeToLevelFunc codes.OK = zerolog.InfoLevel
  ∧ ∀ c : Code, c ≠ codes.OK →
      DefaultCodeToLevelFunc c = zerolog.ErrorLevel := by
  refine ⟨rfl, ?_⟩
  intro c hc
  simp [DefaultCodeToLevelFunc, hc]

/-- Witness for C3: the hypothesis holds at the concrete code `NotFound`. -/
theorem DefaultCodeToLevelFunc_spec_witness :
    codes.NotFound ≠ codes.OK
  ∧ DefaultCodeToLevelFunc codes.NotFound = zerolog.ErrorLevel :=
  ⟨by decide, DefaultCodeToLevelFunc_spec.2 codes.NotFound (by decide)⟩

/-- C4: `DefaultDeciderFunc` returns true for every method name and every
error value, including `nil` (`none`). -/
theorem DefaultDeciderFunc_spec :
    ∀ (fullMethodName : String) (err : GoErr),
      DefaultDeciderFunc fullMethodName err = true :=
  fun _ _ => rfl

/-- C5: `WithLogOnEvents` replaces the event set wholesale: after
`evaluateOptions [WithLogOnEvents E]` the stored events are exactly `E` and an
event is enabled iff it is in `E`; in particular, with only `PayloadSent`
supplied, `StartCall` is disabled and `PayloadSent` is enabled. -/
theorem WithLogOnEvents_replaces_wholesale :
    (∀ E : List LoggableEvent,
        (evaluateOptions [WithLogOnEvents E]).loggableEvents = E
      ∧ ∀ ev : LoggableEvent,
          (evaluateOptions [WithLogOnEvents E]).isEventEnabled ev = true
            ↔ ev ∈ E)
  ∧ (evaluateOptions
      [WithLogOnEvents [.PayloadSent]]).isEventEnabled .StartCall = false
  ∧ (evaluateOptions
      [WithLogOnEvents [.PayloadSent]]).isEventEnabled .PayloadSent = true := by
  refine ⟨fun E => ⟨rfl, fun ev => ?_⟩, by decide, by decide⟩
  simp [evaluateOptions, WithLogOnEvents, options.isEventEnabled]

/-- C6: each single override directive is idempotent: applying it twice in
the list passed to `evaluateOptions` yields the same snapshot as applying it
once. -/
theorem directive_idempotent (d : Directive) :
    evaluateOptions [d.interp, d.interp] = evaluateOptions [d.interp] := by
  cases d <;> rfl

/-- C7: each directive constructor modifies exactly one field of the options
record and leaves the other two unchanged: `WithLevels` only `levelFunc`,
`WithDecider` only `shouldLog`, `WithLogOnEvents` only `loggableEvents`. -/
theorem directive_frame (o : options) (f : CodeToLevel) (g : Decider)
    (E : List LoggableEvent) :
    ((WithLevels f o).levelFunc = f
      ∧ (WithLevels f o).shouldLog = o.shouldLog
      ∧ (WithLevels f o).loggableEvents = o.loggableEvents)
  ∧ ((WithDecider g o).shouldLog = g
      ∧ (WithDecider g o).levelFunc = o.levelFunc
      ∧ (WithDecider g o).loggableEvents = o.loggableEvents)
  ∧ ((WithLogOnEvents E o).loggableEvents = E
      ∧ (WithLogOnEvents E o).levelFunc = o.levelFunc
      ∧ (WithLogOnEvents E o).shouldLog = o.shouldLog) :=
  ⟨⟨rfl, rfl, rfl⟩, ⟨rfl, rfl, rfl⟩, ⟨rfl, rfl, rfl⟩⟩

/-- C8: `evaluateOptions` mutates no shared state: for every directive list
the package-level `defaultOptions` cell is unchanged afterwards (its three
fields are still the original defaults), and a subsequent call with the empty
list still yields the documented default snapshot. -/
theorem evaluateOptions_no_global_mutation (opts : List Opt) :
    (evaluateOptionsIn initPkgState opts).2 = initPkgState
  ∧ (evaluateOptionsIn initPkgState opts).2.defaultOptions.levelFunc
      = DefaultCodeToLevelFunc
  ∧ (evaluateOptionsIn initPkgState opts).2.defaultOptions.shouldLog
      = DefaultDeciderFunc
  ∧ (evaluateOptionsIn initPkgState opts).2.defaultOptions.loggableEvents
      = [.StartCall, .FinishCall]
  ∧ (evaluateOptionsIn (evaluateOptionsIn initPkgState opts).2 []).1
      = defaultOptions :=
  ⟨rfl, rfl, rfl, rfl, rfl⟩

/-- C9: `evaluateOptions` is total and cannot fail: for every finite list of
override directives it returns a snapshot; its type has no error result. -/
theorem evaluateOptions_total (opts : List Opt) :
    ∃ snapshot : options, evaluateOptions opts = snapshot :=
  ⟨_, rfl⟩

/-- C10: `WithLogOnEvents` with zero events yields an empty stored event
sequence, so every event — including `StartCall` and `FinishCall` — is
disabled, unlike passing no directive at all, which keeps the default
`[StartCall, FinishCall]`. -/
theorem WithLogOnEvents_empty_disables_all :
    (evaluateOptions [WithLogOnEvents []]).loggableEvents = []
  ∧ (∀ ev : LoggableEvent,
      (evaluateOptions [WithLogOnEvents []]).isEventEnabled ev = false)
  ∧ (evaluateOptions [WithLogOnEvents []]).isEventEnabled .StartCall = false
  ∧ (evaluateOptions [WithLogOnEvents []]).isEventEnabled .FinishCall = false
  ∧ (evaluateOptions []).loggableEvents = [.StartCall, .FinishCall] :=
  ⟨rfl, fun _ => rfl, rfl, rfl, rfl⟩

end GrpcZerolog
